import Mathlib

/-!
Shallow embedding of the EV adoption forecasting engine of `app.py`.

The core of the program is an autoregressive forecasting loop (lines 67-109
of `app.py`): it seeds a raw rolling window from the last 6 historical EV
totals and a cumulative window from their running sums, then for each of the
`forecast_horizon` future months engineers a feature row (lags, rolling mean,
guarded percent changes, least-squares growth slope), calls the trained
model, records the rounded prediction, and feeds the unrounded prediction
back into both windows.  A second, near-identical loop (lines 152-192) runs
the same computation per county for the multi-county comparison.

Numbers are modelled as rationals (`ℚ`); dates as integer month indices
(`latest_date + pd.DateOffset(months=i)` becomes `lastDate + i`).  The
trained model is an opaque predictor `FeatureRow → Option ℚ`, where `none`
models a predictor call that raises or returns a value that is not a finite
number.  Python exceptions (negative-index `IndexError`, a propagated
predictor exception) abort the whole script producing no output, which the
embedding renders as `Except`: an error result carries no forecast points.
-/

namespace EVForecast

/-- Python `l[-6:]`: the last (at most) 6 elements of a list. -/
def last6 (l : List ℚ) : List ℚ := l.drop (l.length - 6)

/-- Python negative indexing `l[-k]` for `k ≥ 1`: `some` of the k-th element
from the end when it exists, `none` when the index is out of range (Python
raises `IndexError`). -/
def negIdx (l : List ℚ) (k : Nat) : Option ℚ :=
  if k ≤ l.length then l.get? (l.length - k) else none

/-- `np.cumsum`: running sums, `cumsum [a,b,c] = [a, a+b, a+b+c]`. -/
def cumsum : List ℚ → List ℚ
  | [] => []
  | x :: xs => x :: (cumsum xs).map (fun t => x + t)

/-- Python 3 `round` on a finite value: round to nearest integer,
ties to the even integer (banker rounding). -/
def pyRound (q : ℚ) : ℤ :=
  let f := ⌊q⌋
  if q - f < 1/2 then f
  else if (1:ℚ)/2 < q - f then f + 1
  else if f % 2 = 0 then f else f + 1

/-- Slope coefficient of `np.polyfit(range(len(ys)), ys, 1)`: the degree-1
least-squares fit of `ys` against the index sequence `0..len-1`, in the
standard closed form `(n·Σxy − Σx·Σy) / (n·Σx² − (Σx)²)`. -/
def polyfit1Slope (ys : List ℚ) : ℚ :=
  ((ys.length : ℚ) *
        (((List.range ys.length).map (fun i => (i : ℚ))).zip ys |>.map
          (fun p => p.1 * p.2)).sum -
      ((List.range ys.length).map (fun i => (i : ℚ))).sum * ys.sum) /
    ((ys.length : ℚ) *
        (((List.range ys.length).map (fun i => (i : ℚ))).map (fun x => x * x)).sum -
      ((List.range ys.length).map (fun i => (i : ℚ))).sum *
        ((List.range ys.length).map (fun i => (i : ℚ))).sum)

/-- Sum of squared residuals of the affine function `x ↦ a·x + b` against the
points `(i, ys[i])` for `i = 0..len-1`; the objective that a degree-1
least-squares fit minimizes. -/
def sqErr (ys : List ℚ) (a b : ℚ) : ℚ :=
  ((((List.range ys.length).map (fun i => (i : ℚ))).zip ys).map
    (fun p => (p.2 - (a * p.1 + b)) ^ 2)).sum

/-- The feature row assembled at each forecast step (lines 83-93 of `app.py`). -/
structure FeatureRow where
  months_since_start : ℤ
  county_encoded : ℤ
  ev_total_lag1 : ℚ
  ev_total_lag2 : ℚ
  ev_total_lag3 : ℚ
  ev_total_roll_mean_3 : ℚ
  ev_total_pct_change_1 : ℚ
  ev_total_pct_change_3 : ℚ
  ev_growth_slope : ℚ
deriving DecidableEq, Repr

/-- One forecast output row (`{"Date": ..., "Predicted EV Total": round(pred)}`,
line 96): the date as a month index and the rounded prediction. -/
structure ForecastPoint where
  date : ℤ
  predictedEVTotal : ℤ
deriving DecidableEq, Repr

/-- Everything one loop iteration produces: the output row appended to
`future_rows`, the unrounded prediction `pred`, and the feature row it was
predicted from. -/
structure StepOut where
  point : ForecastPoint
  pred : ℚ
  row : FeatureRow
deriving DecidableEq, Repr

/-- The mutable loop state: the raw rolling window `historical_ev`, the
cumulative rolling window `cumulative_ev`, and the `months_since_start`
counter. -/
structure EngineState where
  raw : List ℚ
  cum : List ℚ
  months : ℤ
deriving DecidableEq, Repr

/-- Ways a forecast run can fail.  The script itself only ever aborts with a
Python exception; `indexError` models a negative list index out of range and
`predictorFailure` models the predictor call raising (or returning a
non-finite value).  `insufficientHistory` and `invalidHorizon` are the
distinguished clean errors named by the specification; the code never
produces them. -/
inductive ForecastError where
  | indexError
  | predictorFailure
  | insufficientHistory
  | invalidHorizon
deriving DecidableEq, Repr

/-- The trained model as an opaque predictor: `none` models a call that
raises or returns a non-finite value. -/
def Predictor : Type := FeatureRow → Option ℚ

/-- Feature-row assembly, lines 76-93 of `app.py`: `lag1, lag2, lag3 =
historical_ev[-1], historical_ev[-2], historical_ev[-3]`, the rolling mean of
the three lags, the zero-guarded percent changes, and the growth slope
(`np.polyfit(range(6), cumulative_ev[-6:], 1)[0]` when the cumulative window
has at least 6 entries, else `0`).  `none` when a lag index is out of range. -/
def mkRow (countyCode months : ℤ) (raw cum : List ℚ) : Option FeatureRow :=
  match negIdx raw 1, negIdx raw 2, negIdx raw 3 with
  | some lag1, some lag2, some lag3 =>
      some
        { months_since_start := months
          county_encoded := countyCode
          ev_total_lag1 := lag1
          ev_total_lag2 := lag2
          ev_total_lag3 := lag3
          ev_total_roll_mean_3 := (lag1 + lag2 + lag3) / 3
          ev_total_pct_change_1 := if lag2 ≠ 0 then (lag1 - lag2) / lag2 else 0
          ev_total_pct_change_3 := if lag3 ≠ 0 then (lag1 - lag3) / lag3 else 0
          ev_growth_slope :=
            if 6 ≤ cum.length then polyfit1Slope (last6 cum) else 0 }
  | _, _, _ => none

/-- One loop iteration, lines 75-100 of `app.py`, with the display rounding
function abstracted as `rnd` (the script instantiates it with Python
`round`): advance `months_since_start`, build the feature row, call the
model, record `{"Date": lastDate + i, "Predicted EV Total": rnd pred}`, then
append the unrounded prediction to the raw window and `cumulative_ev[-1] +
pred` to the cumulative window, trimming both to their last 6 elements. -/
def stepR (rnd : ℚ → ℤ) (model : Predictor) (countyCode lastDate : ℤ)
    (i : ℕ) (st : EngineState) : Except ForecastError (StepOut × EngineState) :=
  match mkRow countyCode (st.months + 1) st.raw st.cum with
  | none => .error .indexError
  | some row =>
      match model row with
      | none => .error .predictorFailure
      | some pred =>
          match negIdx st.cum 1 with
          | none => .error .indexError
          | some cumLast =>
              .ok
                (⟨⟨lastDate + i, rnd pred⟩, pred, row⟩,
                  { raw := last6 (st.raw ++ [pred])
                    cum := last6 (st.cum ++ [cumLast + pred])
                    months := st.months + 1 })

/-- The loop iteration as the script runs it, with Python `round`. -/
def step (model : Predictor) (countyCode lastDate : ℤ) (i : ℕ)
    (st : EngineState) : Except ForecastError (StepOut × EngineState) :=
  stepR pyRound model countyCode lastDate i st

/-- The forecasting loop `for i in range(1, forecast_horizon + 1)` with `k`
iterations remaining and `i` the current loop counter, rounding with `rnd`.
An exception at any step aborts the whole script, so an error result carries
no partial output. -/
def forecastAuxR (rnd : ℚ → ℤ) (model : Predictor) (countyCode lastDate : ℤ) :
    ℕ → ℕ → EngineState → Except ForecastError (List StepOut × EngineState)
  | _, 0, st => .ok ([], st)
  | i, k + 1, st =>
      match stepR rnd model countyCode lastDate i st with
      | .error e => .error e
      | .ok (o, st') =>
          match forecastAuxR rnd model countyCode lastDate (i + 1) k st' with
          | .error e => .error e
          | .ok (outs, stF) => .ok (o :: outs, stF)

/-- The forecasting loop as the script runs it. -/
def forecastAux (model : Predictor) (countyCode lastDate : ℤ)
    (i k : ℕ) (st : EngineState) : Except ForecastError (List StepOut × EngineState) :=
  forecastAuxR pyRound model countyCode lastDate i k st

/-- Seeding of the loop state, lines 67-69 of `app.py`: `historical_ev` is
the last 6 historical raw values, `cumulative_ev` is `np.cumsum` of those
same (at most 6) values, and `months_since_start` starts at its historical
maximum. -/
def seed (history : List ℚ) (monthsMax : ℤ) : EngineState :=
  { raw := last6 history, cum := cumsum (last6 history), months := monthsMax }

/-- The single-county forecast, lines 67-100 of `app.py`, with the horizon as
a parameter (the script fixes it to 36): seed the windows from the raw
history of the county, then run the loop. -/
def forecast (model : Predictor) (countyCode monthsMax lastDate : ℤ)
    (history : List ℚ) (horizon : ℕ) :
    Except ForecastError (List StepOut × EngineState) :=
  forecastAux model countyCode lastDate 1 horizon (seed history monthsMax)

/-- Lines 103-109 of `app.py`: the historical cumulative series is the
running sum of the entire historical raw series, and the forecast cumulative
series is the running sum of the rounded `Predicted EV Total` column offset
by the last historical cumulative value
(`forecast_df['Predicted EV Total'].cumsum() + historical_cum['Cumulative EV'].iloc[-1]`). -/
def stitchForecastCum (history : List ℚ) (points : List ForecastPoint) : List ℚ :=
  let offset := ((cumsum history).getLast?).getD 0
  (cumsum (points.map (fun p => (p.predictedEVTotal : ℚ)))).map (fun t => t + offset)

/-!
The multi-county comparison path, lines 152-192 of `app.py`.  The loop body
is translated afresh from that second copy of the code (variables `hist_ev`,
`cum_ev`, `months_since`, `ev_slope`, `future_rows_cty`), so that the
equivalence of the two paths is a theorem about two independently embedded
pieces of code rather than a definition.
-/

/-- Feature-row assembly of the comparison loop, lines 163-180 of `app.py`. -/
def mkRowCty (ctyCode monthsSince : ℤ) (histEv cumEv : List ℚ) : Option FeatureRow :=
  match negIdx histEv 1, negIdx histEv 2, negIdx histEv 3 with
  | some lag1, some lag2, some lag3 =>
      some
        { months_since_start := monthsSince
          county_encoded := ctyCode
          ev_total_lag1 := lag1
          ev_total_lag2 := lag2
          ev_total_lag3 := lag3
          ev_total_roll_mean_3 := (lag1 + lag2 + lag3) / 3
          ev_total_pct_change_1 := if lag2 ≠ 0 then (lag1 - lag2) / lag2 else 0
          ev_total_pct_change_3 := if lag3 ≠ 0 then (lag1 - lag3) / lag3 else 0
          ev_growth_slope :=
            if 6 ≤ cumEv.length then polyfit1Slope (last6 cumEv) else 0 }
  | _, _, _ => none

/-- One iteration of the comparison loop, lines 162-187 of `app.py` (the
script rounds with Python `round`). -/
def stepCty (model : Predictor) (ctyCode lastDate : ℤ) (i : ℕ)
    (st : EngineState) : Except ForecastError (StepOut × EngineState) :=
  match mkRowCty ctyCode (st.months + 1) st.raw st.cum with
  | none => .error .indexError
  | some row =>
      match model row with
      | none => .error .predictorFailure
      | some pred =>
          match negIdx st.cum 1 with
          | none => .error .indexError
          | some cumLast =>
              .ok
                (⟨⟨lastDate + i, pyRound pred⟩, pred, row⟩,
                  { raw := last6 (st.raw ++ [pred])
                    cum := last6 (st.cum ++ [cumLast + pred])
                    months := st.months + 1 })

/-- The comparison forecasting loop `for i in range(1, forecast_horizon + 1)`
of lines 161-187 of `app.py`. -/
def forecastAuxCty (model : Predictor) (ctyCode lastDate : ℤ) :
    ℕ → ℕ → EngineState → Except ForecastError (List StepOut × EngineState)
  | _, 0, st => .ok ([], st)
  | i, k + 1, st =>
      match stepCty model ctyCode lastDate i st with
      | .error e => .error e
      | .ok (o, st') =>
          match forecastAuxCty model ctyCode lastDate (i + 1) k st' with
          | .error e => .error e
          | .ok (outs, stF) => .ok (o :: outs, stF)

/-- Seeding of the comparison loop state, lines 155-157 of `app.py`. -/
def seedCty (histSeries : List ℚ) (monthsMax : ℤ) : EngineState :=
  { raw := last6 histSeries, cum := cumsum (last6 histSeries), months := monthsMax }

/-- The per-county forecast of the comparison path, lines 155-187 of `app.py`. -/
def forecastCty (model : Predictor) (ctyCode monthsMax lastDate : ℤ)
    (histSeries : List ℚ) (horizon : ℕ) :
    Except ForecastError (List StepOut × EngineState) :=
  forecastAuxCty model ctyCode lastDate 1 horizon (seedCty histSeries monthsMax)

/-- Cumulative stitching of the comparison path, lines 189-192 of `app.py`:
`fc_df['Cumulative EV'] = fc_df['Predicted EV Total'].cumsum() +
hist_cum['Cumulative EV'].iloc[-1]`. -/
def stitchCty (histSeries : List ℚ) (points : List ForecastPoint) : List ℚ :=
  let offsetCty := ((cumsum histSeries).getLast?).getD 0
  (cumsum (points.map (fun p => (p.predictedEVTotal : ℚ)))).map (fun t => t + offsetCty)

/-- The per-county inputs both paths read from the dataset: the encoded
county code, the maximum `months_since_start`, the last historical date, and
the raw EV-total series sorted by date. -/
structure CountyData where
  code : ℤ
  monthsMax : ℤ
  lastDate : ℤ
  raw : List ℚ
deriving DecidableEq, Repr

/-- The single-county pipeline of lines 67-109 of `app.py` on the data of one
county: forecast, then stitch the cumulative forecast onto the historical
cumulative series. -/
def runCounty (model : Predictor) (d : CountyData) (horizon : ℕ) :
    Except ForecastError (List StepOut × EngineState × List ℚ) :=
  match forecast model d.code d.monthsMax d.lastDate d.raw horizon with
  | .error e => .error e
  | .ok (outs, st) =>
      .ok (outs, st, stitchForecastCum d.raw (outs.map (fun o => o.point)))

/-- The body of the comparison loop of lines 152-192 of `app.py` on the data
of one county. -/
def runCountyCty (model : Predictor) (d : CountyData) (horizon : ℕ) :
    Except ForecastError (List StepOut × EngineState × List ℚ) :=
  match forecastCty model d.code d.monthsMax d.lastDate d.raw horizon with
  | .error e => .error e
  | .ok (outs, st) =>
      .ok (outs, st, stitchCty d.raw (outs.map (fun o => o.point)))

/-- The multi-county aggregator, lines 152-199 of `app.py`: run the
comparison-loop body once per selected county, in order, each iteration
starting from windows seeded from the data of that county alone. -/
def aggregate (model : Predictor) (ds : List CountyData) (horizon : ℕ) :
    List (Except ForecastError (List StepOut × EngineState × List ℚ)) :=
  ds.map (fun d => runCountyCty model d horizon)

/-- View of a loop result that keeps, per step, exactly the internal
autoregressive data — the feature row, the unrounded prediction and the date
— together with the final window state, and forgets the rounded display
value. -/
def chainView (r : Except ForecastError (List StepOut × EngineState)) :
    Except ForecastError (List (FeatureRow × ℚ × ℤ) × EngineState) :=
  r.map (fun p => (p.1.map (fun o => (o.row, o.pred, o.point.date)), p.2))

/-! General lemmas about the list helpers. -/

theorem getLast?_map (f : ℚ → ℚ) (l : List ℚ) :
    (l.map f).getLast? = l.getLast?.map f := by
  induction l with
  | nil => rfl
  | cons x xs ih =>
      cases xs with
      | nil => rfl
      | cons y ys => simpa [List.getLast?_cons_cons] using ih

theorem cumsum_cons (x : ℚ) (xs : List ℚ) :
    cumsum (x :: xs) = x :: (cumsum xs).map (fun t => x + t) := rfl

theorem getLast?_cumsum (l : List ℚ) (h : l ≠ []) :
    (cumsum l).getLast? = some l.sum := by
  induction l with
  | nil => exact absurd rfl h
  | cons x xs ih =>
      cases xs with
      | nil => simp [cumsum]
      | cons y ys =>
          rw [cumsum_cons, cumsum_cons, List.map_cons, List.getLast?_cons_cons,
            ← List.map_cons, ← cumsum_cons, getLast?_map, ih (by simp)]
          simp

theorem last6_eq_of_length_le {l : List ℚ} (h : l.length ≤ 6) : last6 l = l := by
  simp [last6, Nat.sub_eq_zero_of_le h]

theorem length_last6 (l : List ℚ) : (last6 l).length = min l.length 6 := by
  simp [last6]
  omega

theorem length_cumsum (l : List ℚ) : (cumsum l).length = l.length := by
  induction l with
  | nil => rfl
  | cons x xs ih => simp [cumsum, ih]

theorem negIdx_one (l : List ℚ) : negIdx l 1 = l.getLast? := by
  induction l with
  | nil => simp [negIdx]
  | cons x xs ih =>
      cases xs with
      | nil => simp [negIdx]
      | cons y ys =>
          rw [List.getLast?_cons_cons, ← ih]
          simp only [negIdx, List.length_cons]
          rw [if_pos (by omega), if_pos (by omega)]
          rw [show ys.length + 1 + 1 - 1 = ys.length + 1 from rfl,
            show ys.length + 1 - 1 = ys.length from rfl, List.get?_cons_succ]

theorem getLast?_drop {l : List ℚ} {n : ℕ} (h : n < l.length) :
    (l.drop n).getLast? = l.getLast? := by
  induction l generalizing n with
  | nil => simp at h
  | cons x xs ih =>
      cases n with
      | zero => rfl
      | succ m =>
          have hm : m < xs.length := by simpa using h
          rw [List.drop_succ_cons, ih hm]
          cases xs with
          | nil => simp at hm
          | cons y ys => rw [List.getLast?_cons_cons]

theorem getLast?_last6_append (l : List ℚ) (a : ℚ) :
    (last6 (l ++ [a])).getLast? = some a := by
  rw [last6, getLast?_drop, List.getLast?_concat]
  simp
  omega

/-! Lemmas about feature-row assembly and one loop iteration. -/

theorem mkRow_eq_some_iff (c m : ℤ) (raw cum : List ℚ) (row : FeatureRow) :
    mkRow c m raw cum = some row ↔
      ∃ l1 l2 l3, negIdx raw 1 = some l1 ∧ negIdx raw 2 = some l2 ∧
        negIdx raw 3 = some l3 ∧
        row = ⟨m, c, l1, l2, l3, (l1 + l2 + l3) / 3,
          if l2 ≠ 0 then (l1 - l2) / l2 else 0,
          if l3 ≠ 0 then (l1 - l3) / l3 else 0,
          if 6 ≤ cum.length then polyfit1Slope (last6 cum) else 0⟩ := by
  unfold mkRow
  cases h1 : negIdx raw 1 <;> cases h2 : negIdx raw 2 <;> cases h3 : negIdx raw 3 <;>
    simp [eq_comm]

theorem mkRow_none_of_short (c m : ℤ) (raw cum : List ℚ) (h : raw.length < 3) :
    mkRow c m raw cum = none := by
  have h3 : negIdx raw 3 = none := by simp [negIdx]; omega
  unfold mkRow
  cases h1 : negIdx raw 1 <;> cases h2 : negIdx raw 2 <;> simp [h3]

theorem negIdx_isSome {l : List ℚ} {k : ℕ} (h1 : 1 ≤ k) (h2 : k ≤ l.length) :
    ∃ x, negIdx l k = some x := by
  have hlt : l.length - k < l.length := by omega
  exact ⟨l.get ⟨l.length - k, hlt⟩, by simp [negIdx, if_pos h2, List.get?_eq_get hlt]⟩

theorem mkRow_isSome (c m : ℤ) (raw cum : List ℚ) (h : 3 ≤ raw.length) :
    ∃ row, mkRow c m raw cum = some row := by
  obtain ⟨l1, e1⟩ := negIdx_isSome (l := raw) (k := 1) (by norm_num) (by omega)
  obtain ⟨l2, e2⟩ := negIdx_isSome (l := raw) (k := 2) (by norm_num) (by omega)
  obtain ⟨l3, e3⟩ := negIdx_isSome (l := raw) (k := 3) (by norm_num) (by omega)
  exact ⟨_, (mkRow_eq_some_iff c m raw cum _).mpr ⟨l1, l2, l3, e1, e2, e3, rfl⟩⟩

theorem stepR_ok_iff (rnd : ℚ → ℤ) (model : Predictor) (c ld : ℤ) (i : ℕ)
    (st : EngineState) (o : StepOut) (st' : EngineState) :
    stepR rnd model c ld i st = .ok (o, st') ↔
      ∃ row pred cumLast,
        mkRow c (st.months + 1) st.raw st.cum = some row ∧
        model row = some pred ∧
        negIdx st.cum 1 = some cumLast ∧
        o = ⟨⟨ld + i, rnd pred⟩, pred, row⟩ ∧
        st' = ⟨last6 (st.raw ++ [pred]), last6 (st.cum ++ [cumLast + pred]),
          st.months + 1⟩ := by
  unfold stepR
  cases h1 : mkRow c (st.months + 1) st.raw st.cum with
  | none => simp
  | some row =>
      cases h2 : model row with
      | none => simp [h2]
      | some pred =>
          cases h3 : negIdx st.cum 1 with
          | none => simp [h2, h3]
          | some cumLast =>
              simp only [h2, h3]
              constructor
              · intro h
                injection h with h
                injection h with ho hst
                exact ⟨row, pred, cumLast, rfl, h2, rfl, ho.symm, hst.symm⟩
              · rintro ⟨row', pred', cumLast', hr, hp, hc, ho, hst⟩
                injection hr with hr
                subst hr
                have hpp := h2.symm.trans hp
                injection hpp with hpp
                subst hpp
                injection hc with hc
                subst hc
                subst ho
                subst hst
                rfl

theorem stepR_predictor_fail (rnd : ℚ → ℤ) (model : Predictor) (c ld : ℤ)
    (i : ℕ) (st : EngineState) (row : FeatureRow)
    (h : mkRow c (st.months + 1) st.raw st.cum = some row)
    (hm : model row = none) :
    stepR rnd model c ld i st = .error .predictorFailure := by
  unfold stepR
  rw [h]
  simp only [hm]

theorem forecastAuxR_ok_elim (rnd : ℚ → ℤ) (model : Predictor) (c ld : ℤ)
    (k : ℕ) :
    ∀ (i : ℕ) (st : EngineState) (outs : List StepOut) (stF : EngineState),
      forecastAuxR rnd model c ld i k st = .ok (outs, stF) →
      outs.length = k ∧
      ∀ o ∈ outs, model o.row = some o.pred ∧
        o.point.predictedEVTotal = rnd o.pred ∧
        ∃ m raw cum, mkRow c m raw cum = some o.row := by
  induction k with
  | zero =>
      intro i st outs stF h
      unfold forecastAuxR at h
      injection h with h
      injection h with h1 h2
      subst h1
      exact ⟨rfl, by simp⟩
  | succ k ih =>
      intro i st outs stF h
      rw [forecastAuxR] at h
      cases hs : stepR rnd model c ld i st with
      | error e => rw [hs] at h; exact absurd h (by simp)
      | ok p =>
          obtain ⟨o, st'⟩ := p
          rw [hs] at h
          dsimp only at h
          cases ht : forecastAuxR rnd model c ld (i + 1) k st' with
          | error e => rw [ht] at h; exact absurd h (by simp)
          | ok q =>
              obtain ⟨outs', stF'⟩ := q
              rw [ht] at h
              injection h with h
              injection h with h1 h2
              subst h1
              subst h2
              obtain ⟨hlen, hmem⟩ := ih (i + 1) st' outs' stF' ht
              obtain ⟨row, pred, cumLast, hr, hp, hc, ho, hst⟩ :=
                (stepR_ok_iff rnd model c ld i st o st').mp hs
              refine ⟨by simp [hlen], ?_⟩
              intro o' ho'
              rcases List.mem_cons.mp ho' with h | h
              · subst h
                subst ho
                exact ⟨hp, rfl, _, _, _, hr⟩
              · exact hmem o' h





theorem forecastAuxR_state_inv (rnd : ℚ → ℤ) (model : Predictor) (c ld : ℤ)
    (k : ℕ) :
    ∀ (i : ℕ) (st : EngineState) (outs : List StepOut) (stF : EngineState) (t : ℚ),
      forecastAuxR rnd model c ld i k st = .ok (outs, stF) →
      3 ≤ st.raw.length → st.raw.length ≤ 6 →
      st.cum ≠ [] → st.cum.length ≤ 6 → st.cum.getLast? = some t →
      3 ≤ stF.raw.length ∧ stF.raw.length ≤ 6 ∧
        stF.cum ≠ [] ∧ stF.cum.length ≤ 6 ∧
        stF.cum.getLast? = some (t + (outs.map (fun o => o.pred)).sum) := by
  induction k with
  | zero =>
      intro i st outs stF t h hr3 hr6 hcne hc6 hlast
      unfold forecastAuxR at h
      injection h with h
      injection h with h1 h2
      subst h1
      subst h2
      simpa using ⟨hr3, hr6, hcne, hc6, hlast⟩
  | succ k ih =>
      intro i st outs stF t h hr3 hr6 hcne hc6 hlast
      rw [forecastAuxR] at h
      cases hs : stepR rnd model c ld i st with
      | error e => rw [hs] at h; exact absurd h (by simp)
      | ok p =>
          obtain ⟨o, st'⟩ := p
          rw [hs] at h
          dsimp only at h
          cases ht : forecastAuxR rnd model c ld (i + 1) k st' with
          | error e => rw [ht] at h; exact absurd h (by simp)
          | ok q =>
              obtain ⟨outs', stF'⟩ := q
              rw [ht] at h
              injection h with h
              injection h with h1 h2
              subst h1
              subst h2
              obtain ⟨row, pred, cumLast, hr, hp, hc, ho, hst⟩ :=
                (stepR_ok_iff rnd model c ld i st o st').mp hs
              have hcl : cumLast = t := by
                rw [negIdx_one, hlast] at hc
                injection hc with hcx
                exact hcx.symm
              have hraw3 : 3 ≤ st'.raw.length := by
                rw [hst]
                simp only [length_last6, List.length_append, List.length_cons,
                  List.length_nil]
                omega
              have hraw6 : st'.raw.length ≤ 6 := by
                rw [hst]
                simp only [length_last6, List.length_append, List.length_cons,
                  List.length_nil]
                omega
              have hcum6 : st'.cum.length ≤ 6 := by
                rw [hst]
                simp only [length_last6, List.length_append, List.length_cons,
                  List.length_nil]
                omega
              have hcumlast : st'.cum.getLast? = some (cumLast + pred) := by
                rw [hst]
                exact getLast?_last6_append _ _
              have hcumne : st'.cum ≠ [] := by
                intro hnil
                rw [hnil] at hcumlast
                exact absurd hcumlast (by simp)
              obtain ⟨f3, f6, fne, fc6, flast⟩ :=
                ih (i + 1) st' outs' stF' (cumLast + pred) ht hraw3 hraw6
                  hcumne hcum6 hcumlast
              refine ⟨f3, f6, fne, fc6, ?_⟩
              rw [flast, ho, hcl]
              simp
              ring

theorem forecastAuxR_total (rnd : ℚ → ℤ) (model : Predictor) (c ld : ℤ)
    (htot : ∀ r, (model r).isSome = true) (k : ℕ) :
    ∀ (i : ℕ) (st : EngineState), 3 ≤ st.raw.length → st.cum ≠ [] →
      ∃ outs stF, forecastAuxR rnd model c ld i k st = .ok (outs, stF) ∧
        outs.map (fun o => o.point.date) =
          (List.range k).map (fun j => ld + ((i + j : ℕ) : ℤ)) := by
  induction k with
  | zero =>
      intro i st hr3 hcne
      exact ⟨[], st, rfl, by simp⟩
  | succ k ih =>
      intro i st hr3 hcne
      obtain ⟨row, hrow⟩ := mkRow_isSome c (st.months + 1) st.raw st.cum hr3
      obtain ⟨pred, hpred⟩ := Option.isSome_iff_exists.mp (htot row)
      obtain ⟨t, ht⟩ := Option.isSome_iff_exists.mp
        (by rwa [List.getLast?_isSome] : st.cum.getLast?.isSome = true)
      have hneg : negIdx st.cum 1 = some t := by rw [negIdx_one, ht]
      have hs : stepR rnd model c ld i st =
          .ok (⟨⟨ld + i, rnd pred⟩, pred, row⟩,
            ⟨last6 (st.raw ++ [pred]), last6 (st.cum ++ [t + pred]),
              st.months + 1⟩) :=
        (stepR_ok_iff rnd model c ld i st _ _).mpr
          ⟨row, pred, t, hrow, hpred, hneg, rfl, rfl⟩
      have hraw3 : 3 ≤ (last6 (st.raw ++ [pred])).length := by
        simp only [length_last6, List.length_append, List.length_cons,
          List.length_nil]
        omega
      have hcumne : last6 (st.cum ++ [t + pred]) ≠ [] := by
        intro hnil
        have h2 := getLast?_last6_append st.cum (t + pred)
        rw [hnil] at h2
        exact absurd h2 (by simp)
      obtain ⟨outs, stF, haux, hdates⟩ :=
        ih (i + 1)
          ⟨last6 (st.raw ++ [pred]), last6 (st.cum ++ [t + pred]), st.months + 1⟩
          hraw3 hcumne
      refine ⟨⟨⟨ld + i, rnd pred⟩, pred, row⟩ :: outs, stF, ?_, ?_⟩
      · rw [forecastAuxR, hs]
        dsimp only
        rw [haux]
      · rw [List.map_cons, hdates, List.range_succ_eq_map, List.map_cons,
          List.map_map]
        refine congrArg₂ (· :: ·) (by simp) ?_
        apply List.map_congr_left
        intro j hj
        simp only [Function.comp_apply]
        congr 1
        omega

theorem chainView_auxR (rnd1 rnd2 : ℚ → ℤ) (model : Predictor) (c ld : ℤ)
    (k : ℕ) :
    ∀ (i : ℕ) (st : EngineState),
      chainView (forecastAuxR rnd1 model c ld i k st) =
      chainView (forecastAuxR rnd2 model c ld i k st) := by
  induction k with
  | zero => intro i st; rfl
  | succ k ih =>
      intro i st
      rw [forecastAuxR, forecastAuxR]
      cases h1 : mkRow c (st.months + 1) st.raw st.cum with
      | none => simp [stepR, h1]
      | some row =>
          cases h2 : model row with
          | none => simp [stepR, h1, h2]
          | some pred =>
              cases h3 : negIdx st.cum 1 with
              | none => simp [stepR, h1, h2, h3]
              | some cumLast =>
                  simp only [stepR, h1, h2, h3]
                  have hih := ih (i + 1)
                    ⟨last6 (st.raw ++ [pred]), last6 (st.cum ++ [cumLast + pred]),
                      st.months + 1⟩
                  cases ht1 : forecastAuxR rnd1 model c ld (i + 1) k
                      ⟨last6 (st.raw ++ [pred]), last6 (st.cum ++ [cumLast + pred]),
                        st.months + 1⟩ with
                  | error e1 =>
                      cases ht2 : forecastAuxR rnd2 model c ld (i + 1) k
                          ⟨last6 (st.raw ++ [pred]), last6 (st.cum ++ [cumLast + pred]),
                            st.months + 1⟩ with
                      | error e2 =>
                          rw [ht1, ht2] at hih
                          injection hih with hih
                          subst hih
                          rfl
                      | ok q =>
                          rw [ht1, ht2] at hih
                          exact absurd hih (by simp [chainView, Except.map])
                  | ok p =>
                      cases ht2 : forecastAuxR rnd2 model c ld (i + 1) k
                          ⟨last6 (st.raw ++ [pred]), last6 (st.cum ++ [cumLast + pred]),
                            st.months + 1⟩ with
                      | error e2 =>
                          rw [ht1, ht2] at hih
                          exact absurd hih (by simp [chainView, Except.map])
                      | ok q =>
                          obtain ⟨outs1, stF1⟩ := p
                          obtain ⟨outs2, stF2⟩ := q
                          rw [ht1, ht2] at hih
                          simp only [chainView, Except.map] at hih ⊢
                          injection hih with hih
                          injection hih with hv hstf
                          simp [hv, hstf]





theorem mkRowCty_eq (c m : ℤ) (raw cum : List ℚ) :
    mkRowCty c m raw cum = mkRow c m raw cum := rfl

theorem stepCty_eq (model : Predictor) (c ld : ℤ) (i : ℕ) (st : EngineState) :
    stepCty model c ld i st = step model c ld i st := rfl

theorem stitchCty_eq (histSeries : List ℚ) (points : List ForecastPoint) :
    stitchCty histSeries points = stitchForecastCum histSeries points := rfl

theorem forecastAuxCty_eq (model : Predictor) (c ld : ℤ) (k : ℕ) :
    ∀ (i : ℕ) (st : EngineState),
      forecastAuxCty model c ld i k st = forecastAux model c ld i k st := by
  induction k with
  | zero => intro i st; rfl
  | succ k ih =>
      intro i st
      rw [forecastAux, forecastAuxR, forecastAuxCty, stepCty_eq, step]
      cases hs : stepR pyRound model c ld i st with
      | error e => rfl
      | ok p =>
          obtain ⟨o, st'⟩ := p
          dsimp only
          rw [ih (i + 1) st', forecastAux]

theorem forecastCty_eq (model : Predictor) (c mm ld : ℤ) (hist : List ℚ)
    (horizon : ℕ) :
    forecastCty model c mm ld hist horizon = forecast model c mm ld hist horizon := by
  rw [forecastCty, forecast, forecastAuxCty_eq]
  rfl

theorem runCountyCty_eq (model : Predictor) (d : CountyData) (horizon : ℕ) :
    runCountyCty model d horizon = runCounty model d horizon := by
  rw [runCountyCty, runCounty, forecastCty_eq]
  simp only [stitchCty_eq]

theorem cumsum_get?_zero (x : ℚ) (xs : List ℚ) :
    (cumsum (x :: xs)).get? 0 = some x := rfl

theorem cumsum_get?_sub (l : List ℚ) :
    ∀ (i : ℕ) (a b : ℚ), (cumsum l).get? i = some a →
      (cumsum l).get? (i + 1) = some b →
      ∃ x, l.get? (i + 1) = some x ∧ b - a = x := by
  induction l with
  | nil => intro i a b h1 _; simp [cumsum] at h1
  | cons x xs ih =>
      intro i a b h1 h2
      cases i with
      | zero =>
          rw [cumsum_cons] at h1 h2
          rw [List.get?_cons_zero] at h1
          injection h1 with h1
          subst h1
          rw [List.get?_cons_succ, List.get?_map] at h2
          cases xs with
          | nil => simp [cumsum] at h2
          | cons y ys =>
              rw [cumsum_get?_zero] at h2
              injection h2 with h2
              subst h2
              exact ⟨y, rfl, by ring⟩
      | succ j =>
          rw [cumsum_cons, List.get?_cons_succ, List.get?_map] at h1 h2
          cases ha0 : (cumsum xs).get? j with
          | none => rw [ha0] at h1; exact absurd h1 (by simp)
          | some a0 =>
              rw [ha0] at h1
              injection h1 with h1
              cases hb0 : (cumsum xs).get? (j + 1) with
              | none => rw [hb0] at h2; exact absurd h2 (by simp)
              | some b0 =>
                  rw [hb0] at h2
                  injection h2 with h2
                  obtain ⟨v, hv, hvd⟩ := ih j a0 b0 ha0 hb0
                  exact ⟨v, by rw [List.get?_cons_succ]; exact hv,
                    by rw [← h1, ← h2, ← hvd]; ring⟩

theorem sqErr_six (y0 y1 y2 y3 y4 y5 a b : ℚ) :
    sqErr [y0, y1, y2, y3, y4, y5] a b =
      (y0 - b) ^ 2 + (y1 - (a + b)) ^ 2 + (y2 - (2 * a + b)) ^ 2 +
        (y3 - (3 * a + b)) ^ 2 + (y4 - (4 * a + b)) ^ 2 +
        (y5 - (5 * a + b)) ^ 2 := by
  show (((([0, 1, 2, 3, 4, 5] : List ℕ).map (fun i => (i : ℚ))).zip
      [y0, y1, y2, y3, y4, y5]).map (fun p => (p.2 - (a * p.1 + b)) ^ 2)).sum = _
  norm_num [List.zip]
  ring

theorem polyfit1Slope_six (y0 y1 y2 y3 y4 y5 : ℚ) :
    polyfit1Slope [y0, y1, y2, y3, y4, y5] =
      (6 * (y1 + 2 * y2 + 3 * y3 + 4 * y4 + 5 * y5) -
        15 * (y0 + y1 + y2 + y3 + y4 + y5)) / 105 := by
  have h6 : ([y0, y1, y2, y3, y4, y5] : List ℚ).length = 6 := rfl
  rw [polyfit1Slope, h6, show List.range 6 = [0, 1, 2, 3, 4, 5] from rfl]
  norm_num [List.zip]
  ring





theorem ls_decomp_six (y0 y1 y2 y3 y4 y5 a b s bh : ℚ)
    (hs : s = polyfit1Slope [y0, y1, y2, y3, y4, y5])
    (hbh : bh = ((y0 + y1 + y2 + y3 + y4 + y5) - 15 * s) / 6) :
    sqErr [y0, y1, y2, y3, y4, y5] a b =
      sqErr [y0, y1, y2, y3, y4, y5] s bh +
        ((b - bh) ^ 2 + ((a - s) + (b - bh)) ^ 2 + (2 * (a - s) + (b - bh)) ^ 2 +
          (3 * (a - s) + (b - bh)) ^ 2 + (4 * (a - s) + (b - bh)) ^ 2 +
          (5 * (a - s) + (b - bh)) ^ 2) := by
  subst hbh
  subst hs
  rw [sqErr_six, sqErr_six, polyfit1Slope_six]
  ring





theorem ls_min_six (y0 y1 y2 y3 y4 y5 a b s bh : ℚ)
    (hs : s = polyfit1Slope [y0, y1, y2, y3, y4, y5])
    (hbh : bh = ((y0 + y1 + y2 + y3 + y4 + y5) - 15 * s) / 6) :
    sqErr [y0, y1, y2, y3, y4, y5] s bh ≤ sqErr [y0, y1, y2, y3, y4, y5] a b := by
  rw [ls_decomp_six y0 y1 y2 y3 y4 y5 a b s bh hs hbh]
  nlinarith [sq_nonneg (b - bh), sq_nonneg ((a - s) + (b - bh)),
    sq_nonneg (2 * (a - s) + (b - bh)), sq_nonneg (3 * (a - s) + (b - bh)),
    sq_nonneg (4 * (a - s) + (b - bh)), sq_nonneg (5 * (a - s) + (b - bh))]

theorem ls_unique_six (y0 y1 y2 y3 y4 y5 a b s bh : ℚ)
    (hs : s = polyfit1Slope [y0, y1, y2, y3, y4, y5])
    (hbh : bh = ((y0 + y1 + y2 + y3 + y4 + y5) - 15 * s) / 6)
    (hmin : ∀ a' b', sqErr [y0, y1, y2, y3, y4, y5] a b ≤
      sqErr [y0, y1, y2, y3, y4, y5] a' b') :
    a = s := by
  have h1 := hmin s bh
  have h2 := ls_decomp_six y0 y1 y2 y3 y4 y5 a b s bh hs hbh
  have q1 := sq_nonneg (b - bh)
  have q2 := sq_nonneg ((a - s) + (b - bh))
  have q3 := sq_nonneg (2 * (a - s) + (b - bh))
  have q4 := sq_nonneg (3 * (a - s) + (b - bh))
  have q5 := sq_nonneg (4 * (a - s) + (b - bh))
  have q6 := sq_nonneg (5 * (a - s) + (b - bh))
  have e1 : (b - bh) ^ 2 = 0 := le_antisymm (by linarith) q1
  have e2 : ((a - s) + (b - bh)) ^ 2 = 0 := le_antisymm (by linarith) q2
  have f1 : b - bh = 0 := by
    have := sq_eq_zero_iff.mp e1
    exact this
  have f2 : (a - s) + (b - bh) = 0 := sq_eq_zero_iff.mp e2
  linarith

/-! The claim theorems. -/

/-- C2 (counterexample): on the two-point history `[5, 7]` the script fails
with a negative-index `IndexError` (from `historical_ev[-3]`), which is not
the distinguished `InsufficientHistory` error the claim requires. -/
theorem short_history_not_insufficientHistory :
    forecast (fun _ => some 0) 1 10 100 [5, 7] 36 = .error .indexError ∧
      ForecastError.indexError ≠ ForecastError.insufficientHistory :=
  ⟨rfl, by decide⟩

/-- C2 (amended): for every history with fewer than 3 points and every
horizon ≥ 1, the forecast produces no forecast points, but it fails with a
raw index-out-of-range error, not with a distinguished `InsufficientHistory`
error. -/
theorem forecast_short_history_index_error (model : Predictor) (c mm ld : ℤ)
    (hist : List ℚ) (horizon : ℕ) (hshort : hist.length < 3)
    (hpos : 1 ≤ horizon) :
    forecast model c mm ld hist horizon = .error .indexError := by
  obtain ⟨k, rfl⟩ : ∃ k, horizon = k + 1 := ⟨horizon - 1, by omega⟩
  rw [forecast, forecastAux, forecastAuxR]
  have hmk : mkRow c ((seed hist mm).months + 1) (seed hist mm).raw
      (seed hist mm).cum = none := by
    apply mkRow_none_of_short
    show (last6 hist).length < 3
    rw [length_last6]
    omega
  have hs : stepR pyRound model c ld 1 (seed hist mm) = .error .indexError := by
    unfold stepR
    rw [hmk]
  rw [hs]

/-- C2 witness: the amended theorem applied to the concrete two-point
history. -/
theorem forecast_short_history_index_error_witness :
    forecast (fun _ => some 1) 2 10 100 [5, 7] 36 = .error .indexError :=
  forecast_short_history_index_error (fun _ => some 1) 2 10 100 [5, 7] 36
    (by norm_num) (by norm_num)

/-- C3 (counterexample): on the seven-point history of all ones the seed
cumulative window is `np.cumsum` of only the last 6 raw values, so its last
element is 6 while the running total of all raw values is 7: the cumulative
window is not seeded from the cumulative sums of the entire historical
series. -/
theorem seed_cum_last_ne_total_sum :
    (seed [1, 1, 1, 1, 1, 1, 1] 0).cum.getLast? = some 6 ∧
      ([1, 1, 1, 1, 1, 1, 1] : List ℚ).sum = 7 ∧ (6 : ℚ) ≠ 7 :=
  ⟨by with_unfolding_all rfl, by norm_num, by norm_num⟩

/-- C3 (amended): before the first step and after every append both windows
have length at most 6; the cumulative window is seeded from the cumulative
sums of the LAST (at most) 6 historical raw values, and its last element
equals the sum of those seed values plus all (unrounded) predictions made so
far — not the running total of the entire historical series. -/
theorem window_invariant (model : Predictor) (c mm ld : ℤ) (hist : List ℚ)
    (h3 : 3 ≤ hist.length) :
    ((seed hist mm).raw.length ≤ 6 ∧ (seed hist mm).cum.length ≤ 6 ∧
      (seed hist mm).cum = cumsum (last6 hist) ∧
      (seed hist mm).cum.getLast? = some (last6 hist).sum) ∧
    ∀ (k : ℕ) (outs : List StepOut) (stF : EngineState),
      forecast model c mm ld hist k = .ok (outs, stF) →
      stF.raw.length ≤ 6 ∧ stF.cum.length ≤ 6 ∧
        stF.cum.getLast? =
          some ((last6 hist).sum + (outs.map (fun o => o.pred)).sum) := by
  have hr : (seed hist mm).raw = last6 hist := rfl
  have hc : (seed hist mm).cum = cumsum (last6 hist) := rfl
  have hlen6 : (last6 hist).length ≤ 6 := by rw [length_last6]; omega
  have hlen3 : 3 ≤ (last6 hist).length := by rw [length_last6]; omega
  have hne : last6 hist ≠ [] := by
    intro hnil
    rw [hnil] at hlen3
    simp at hlen3
  have hclast : (seed hist mm).cum.getLast? = some (last6 hist).sum := by
    rw [hc]
    exact getLast?_cumsum _ hne
  refine ⟨⟨by rw [hr]; exact hlen6, by rw [hc, length_cumsum]; exact hlen6,
    hc, hclast⟩, ?_⟩
  intro k outs stF h
  have hcne : (seed hist mm).cum ≠ [] := by
    intro hnil
    rw [hnil] at hclast
    exact absurd hclast (by simp)
  obtain ⟨_, f6, _, fc6, flast⟩ :=
    forecastAuxR_state_inv pyRound model c ld k 1 (seed hist mm) outs stF
      (last6 hist).sum h (by rw [hr]; exact hlen3) (by rw [hr]; exact hlen6)
      hcne (by rw [hc, length_cumsum]; exact hlen6) hclast
  exact ⟨f6, fc6, flast⟩

/-- C3 witness: the amended invariant applied to a concrete history. -/
theorem window_invariant_witness :
    (((seed [1, 2, 3, 4] 10).raw.length ≤ 6 ∧
        (seed [1, 2, 3, 4] 10).cum.length ≤ 6 ∧
        (seed [1, 2, 3, 4] 10).cum = cumsum (last6 [1, 2, 3, 4]) ∧
        (seed [1, 2, 3, 4] 10).cum.getLast? = some (last6 [1, 2, 3, 4]).sum) ∧
      ∀ (k : ℕ) (outs : List StepOut) (stF : EngineState),
        forecast (fun _ => some 2) 1 10 100 [1, 2, 3, 4] k = .ok (outs, stF) →
        stF.raw.length ≤ 6 ∧ stF.cum.length ≤ 6 ∧
          stF.cum.getLast? =
            some ((last6 [1, 2, 3, 4]).sum +
              (outs.map (fun o => o.pred)).sum)) :=
  window_invariant (fun _ => some 2) 1 10 100 [1, 2, 3, 4] (by norm_num)





/-- C10: the engine applies no validation or clamping to predictor outputs.
First conjunct: whatever value the predictor returns at a successful step is
appended unchanged to the raw window and added to the cumulative total.
Second conjunct: on the non-negative integer history `[1, 2, 3]`, a predictor
returning `-5` yields negative emitted `Predicted EV Total` values, `-5`
entries in the raw window, and a stitched cumulative series that decreases
from 1 to -4. -/
theorem predictor_output_unvalidated :
    (∀ (rnd : ℚ → ℤ) (model : Predictor) (c ld : ℤ) (i : ℕ)
        (st : EngineState) (o : StepOut) (st' : EngineState),
      stepR rnd model c ld i st = .ok (o, st') →
      model o.row = some o.pred ∧ st'.raw = last6 (st.raw ++ [o.pred]) ∧
        ∃ t, negIdx st.cum 1 = some t ∧
          st'.cum = last6 (st.cum ++ [t + o.pred])) ∧
    ((∀ x ∈ ([1, 2, 3] : List ℚ), 0 ≤ x) ∧
      (forecast (fun _ => some (-5)) 1 10 100 [1, 2, 3] 2).map
          (fun p => (p.1.map (fun o => o.point.predictedEVTotal), p.2.raw,
            p.2.cum, stitchForecastCum [1, 2, 3] (p.1.map (fun o => o.point)))) =
        .ok ([-5, -5], [1, 2, 3, -5, -5], [1, 3, 6, 1, -4], [1, -4]) ∧
      (-5 : ℤ) < 0 ∧ (-4 : ℚ) < 1) := by
  constructor
  · intro rnd model c ld i st o st' h
    obtain ⟨row, pred, cumLast, hr, hp, hc, ho, hst⟩ :=
      (stepR_ok_iff rnd model c ld i st o st').mp h
    subst ho
    subst hst
    exact ⟨hp, rfl, cumLast, hc, rfl⟩
  · exact ⟨by norm_num, by with_unfolding_all rfl, by norm_num, by norm_num⟩

/-- C10 witness: the no-clamping step property applied to a concrete
successful step with prediction `-5`. -/
theorem predictor_output_unvalidated_witness :
    (fun _ => some (-5) : Predictor)
        ({ months_since_start := 11, county_encoded := 1, ev_total_lag1 := 3,
           ev_total_lag2 := 2, ev_total_lag3 := 1, ev_total_roll_mean_3 := 2,
           ev_total_pct_change_1 := 1/2, ev_total_pct_change_3 := 2,
           ev_growth_slope := 0 } : FeatureRow) = some (-5) ∧
      ([1, 2, 3, -5] : List ℚ) = last6 ([1, 2, 3] ++ [-5]) ∧
      ∃ t, negIdx [1, 3, 6] 1 = some t ∧
        ([1, 3, 6, 1] : List ℚ) = last6 ([1, 3, 6] ++ [t + -5]) := by
  have h := (predictor_output_unvalidated).1 pyRound (fun _ => some (-5)) 1 100 1
    ⟨[1, 2, 3], [1, 3, 6], 10⟩
    ⟨⟨101, -5⟩, -5,
      { months_since_start := 11, county_encoded := 1, ev_total_lag1 := 3,
        ev_total_lag2 := 2, ev_total_lag3 := 1, ev_total_roll_mean_3 := 2,
        ev_total_pct_change_1 := 1/2, ev_total_pct_change_3 := 2,
        ev_growth_slope := 0 }⟩
    ⟨[1, 2, 3, -5], [1, 3, 6, 1], 11⟩ (by with_unfolding_all rfl)
  exact h





/-- C1 (counterexample): with history `[1, 1, 1]` (final historical
cumulative value 3) and a predictor returning the non-integer 1/2, the
stitched cumulative forecast is `[3]` (it adds `round(1/2) = 0`), whereas the
claim requires `cumulative_forecast[0] = 3 + 1/2`. -/
theorem stitched_cumulative_not_unrounded :
    (forecast (fun _ => some (1/2)) 1 10 100 [1, 1, 1] 1).map
        (fun p => (p.1.map (fun o => o.pred),
          stitchForecastCum [1, 1, 1] (p.1.map (fun o => o.point)))) =
      .ok ([1/2], [3]) ∧
    ([1, 1, 1] : List ℚ).sum = 3 ∧ (3 : ℚ) ≠ 3 + 1/2 :=
  ⟨by with_unfolding_all rfl, by norm_num, by norm_num⟩

/-- C1 (amended): the stitched cumulative forecast series is built from the
ROUNDED predictions: its first entry equals the final historical cumulative
value plus the rounded step-0 prediction, and each consecutive difference
equals the rounded prediction of that step. -/
theorem stitched_cumulative_rounded (model : Predictor) (c mm ld : ℤ)
    (hist : List ℚ) (horizon : ℕ) (outs : List StepOut) (stF : EngineState)
    (hok : forecast model c mm ld hist horizon = .ok (outs, stF))
    (hne : hist ≠ []) :
    (∀ o0, outs.get? 0 = some o0 →
      (stitchForecastCum hist (outs.map (fun o => o.point))).get? 0 =
        some (hist.sum + (pyRound o0.pred : ℚ))) ∧
    (∀ (n : ℕ) (a b : ℚ) (oi : StepOut),
      (stitchForecastCum hist (outs.map (fun o => o.point))).get? n = some a →
      (stitchForecastCum hist (outs.map (fun o => o.point))).get? (n + 1) = some b →
      outs.get? (n + 1) = some oi →
      b - a = (pyRound oi.pred : ℚ)) := by
  have hrnd : ∀ o ∈ outs, o.point.predictedEVTotal = pyRound o.pred := by
    intro o ho
    exact ((forecastAuxR_ok_elim pyRound model c ld horizon 1 (seed hist mm)
      outs stF hok).2 o ho).2.1
  have hoff : ((cumsum hist).getLast?).getD 0 = hist.sum := by
    rw [getLast?_cumsum hist hne]
    rfl
  have hvals : ∀ (n : ℕ) (oi : StepOut), outs.get? n = some oi →
      ((outs.map (fun o => o.point)).map
        (fun p => (p.predictedEVTotal : ℚ))).get? n =
        some ((pyRound oi.pred : ℚ)) := by
    intro n oi hn
    rw [List.get?_map, List.get?_map, hn]
    dsimp only [Option.map]
    rw [hrnd oi (List.get?_mem hn)]
  constructor
  · intro o0 h0
    have hv0 := hvals 0 o0 h0
    simp only [stitchForecastCum]
    rw [hoff]
    cases hv : (outs.map (fun o => o.point)).map
        (fun p => (p.predictedEVTotal : ℚ)) with
    | nil => rw [hv] at hv0; exact absurd hv0 (by simp)
    | cons v rest =>
        rw [hv] at hv0
        rw [List.get?_cons_zero] at hv0
        injection hv0 with hv0
        rw [List.get?_map, cumsum_get?_zero]
        dsimp only [Option.map]
        rw [hv0]
        exact congrArg some (add_comm _ _)
  · intro n a b oi hna hnb hoi
    simp only [stitchForecastCum] at hna hnb
    rw [hoff] at hna hnb
    rw [List.get?_map] at hna hnb
    cases ha0 : (cumsum ((outs.map (fun o => o.point)).map
        (fun p => (p.predictedEVTotal : ℚ)))).get? n with
    | none => rw [ha0] at hna; exact absurd hna (by simp)
    | some a0 =>
        rw [ha0] at hna
        injection hna with hna
        cases hb0 : (cumsum ((outs.map (fun o => o.point)).map
            (fun p => (p.predictedEVTotal : ℚ)))).get? (n + 1) with
        | none => rw [hb0] at hnb; exact absurd hnb (by simp)
        | some b0 =>
            rw [hb0] at hnb
            injection hnb with hnb
            obtain ⟨x, hx, hxd⟩ := cumsum_get?_sub _ n a0 b0 ha0 hb0
            have := hvals (n + 1) oi hoi
            rw [hx] at this
            injection this with this
            rw [← hna, ← hnb, ← this, ← hxd]
            ring

/-- C1 witness: the amended stitching property applied to the concrete
one-step forecast of the counterexample. -/
theorem stitched_cumulative_rounded_witness :
    (∀ o0, ([⟨⟨101, 0⟩, 1/2,
        { months_since_start := 11, county_encoded := 1, ev_total_lag1 := 1,
          ev_total_lag2 := 1, ev_total_lag3 := 1, ev_total_roll_mean_3 := 1,
          ev_total_pct_change_1 := 0, ev_total_pct_change_3 := 0,
          ev_growth_slope := 0 }⟩] : List StepOut).get? 0 = some o0 →
      (stitchForecastCum [1, 1, 1]
          (([⟨⟨101, 0⟩, 1/2,
            { months_since_start := 11, county_encoded := 1, ev_total_lag1 := 1,
              ev_total_lag2 := 1, ev_total_lag3 := 1, ev_total_roll_mean_3 := 1,
              ev_total_pct_change_1 := 0, ev_total_pct_change_3 := 0,
              ev_growth_slope := 0 }⟩] : List StepOut).map
            (fun o => o.point))).get? 0 =
        some (([1, 1, 1] : List ℚ).sum + (pyRound o0.pred : ℚ))) ∧
    (∀ (n : ℕ) (a b : ℚ) (oi : StepOut),
      (stitchForecastCum [1, 1, 1]
          (([⟨⟨101, 0⟩, 1/2,
            { months_since_start := 11, county_encoded := 1, ev_total_lag1 := 1,
              ev_total_lag2 := 1, ev_total_lag3 := 1, ev_total_roll_mean_3 := 1,
              ev_total_pct_change_1 := 0, ev_total_pct_change_3 := 0,
              ev_growth_slope := 0 }⟩] : List StepOut).map
            (fun o => o.point))).get? n = some a →
      (stitchForecastCum [1, 1, 1]
          (([⟨⟨101, 0⟩, 1/2,
            { months_since_start := 11, county_encoded := 1, ev_total_lag1 := 1,
              ev_total_lag2 := 1, ev_total_lag3 := 1, ev_total_roll_mean_3 := 1,
              ev_total_pct_change_1 := 0, ev_total_pct_change_3 := 0,
              ev_growth_slope := 0 }⟩] : List StepOut).map
            (fun o => o.point))).get? (n + 1) = some b →
      ([⟨⟨101, 0⟩, 1/2,
        { months_since_start := 11, county_encoded := 1, ev_total_lag1 := 1,
          ev_total_lag2 := 1, ev_total_lag3 := 1, ev_total_roll_mean_3 := 1,
          ev_total_pct_change_1 := 0, ev_total_pct_change_3 := 0,
          ev_growth_slope := 0 }⟩] : List StepOut).get? (n + 1) = some oi →
      b - a = (pyRound oi.pred : ℚ)) :=
  stitched_cumulative_rounded (fun _ => some (1/2)) 1 10 100 [1, 1, 1] 1
    _ ⟨[1, 1, 1, 1/2], [1, 2, 3, 7/2], 11⟩ (by with_unfolding_all rfl)
    (by simp)





/-- C5: at every step of a successful forecast run, the percent-change
features of the emitted feature row are exactly the zero-guarded divisions:
zero when the corresponding lag is zero, the exact quotient otherwise, and —
the values being rationals — never NaN or Infinity. -/
theorem pct_change_guarded (model : Predictor) (c mm ld : ℤ) (hist : List ℚ)
    (horizon : ℕ) (outs : List StepOut) (stF : EngineState)
    (hok : forecast model c mm ld hist horizon = .ok (outs, stF)) :
    ∀ o ∈ outs,
      (o.row.ev_total_lag2 = 0 → o.row.ev_total_pct_change_1 = 0) ∧
      (o.row.ev_total_lag2 ≠ 0 → o.row.ev_total_pct_change_1 =
        (o.row.ev_total_lag1 - o.row.ev_total_lag2) / o.row.ev_total_lag2) ∧
      (o.row.ev_total_lag3 = 0 → o.row.ev_total_pct_change_3 = 0) ∧
      (o.row.ev_total_lag3 ≠ 0 → o.row.ev_total_pct_change_3 =
        (o.row.ev_total_lag1 - o.row.ev_total_lag3) / o.row.ev_total_lag3) := by
  intro o ho
  obtain ⟨m, raw, cum, hmk⟩ :=
    ((forecastAuxR_ok_elim pyRound model c ld horizon 1 (seed hist mm)
      outs stF hok).2 o ho).2.2
  obtain ⟨l1, l2, l3, e1, e2, e3, hrow⟩ :=
    (mkRow_eq_some_iff c m raw cum o.row).mp hmk
  rw [hrow]
  refine ⟨?_, ?_, ?_, ?_⟩ <;> dsimp only <;> intro hz
  · rw [if_neg (by simpa using hz)]
  · rw [if_pos hz]
  · rw [if_neg (by simpa using hz)]
  · rw [if_pos hz]

/-- C5 witness: the guarded percent-change property applied to a concrete
run on the all-zero history, where `lag2 = lag3 = 0` forces both
percent-change features to be exactly 0 (the statement is the instantiated
conclusion, with the feature-row projections reduced). -/
theorem pct_change_guarded_witness :
    ((0 : ℚ) = 0 → (0 : ℚ) = 0) ∧
    ((0 : ℚ) ≠ 0 → (0 : ℚ) = ((0 : ℚ) - 0) / 0) ∧
    ((0 : ℚ) = 0 → (0 : ℚ) = 0) ∧
    ((0 : ℚ) ≠ 0 → (0 : ℚ) = ((0 : ℚ) - 0) / 0) :=
  pct_change_guarded (fun _ => some 1) 1 10 100 [0, 0, 0] 1
    [⟨⟨101, 1⟩, 1,
      { months_since_start := 11, county_encoded := 1, ev_total_lag1 := 0,
        ev_total_lag2 := 0, ev_total_lag3 := 0, ev_total_roll_mean_3 := 0,
        ev_total_pct_change_1 := 0, ev_total_pct_change_3 := 0,
        ev_growth_slope := 0 }⟩]
    ⟨[0, 0, 0, 1], [0, 0, 0, 1], 11⟩ (by with_unfolding_all rfl)
    _ (List.mem_singleton.mpr rfl)

/-- C7: a failing predictor call (`none`: the call raises or returns a
non-finite value) makes the step abort with `predictorFailure`, producing no
forecast point and no successor window state; and any successful run has
exactly `horizon` outputs, every one of whose predictions is the value the
predictor returned for its feature row — never a substituted default. -/
theorem predictor_failure_aborts (model : Predictor) (c mm ld : ℤ)
    (hist : List ℚ) (horizon : ℕ) :
    (∀ (i : ℕ) (st : EngineState) (row : FeatureRow),
      mkRow c (st.months + 1) st.raw st.cum = some row → model row = none →
      step model c ld i st = .error .predictorFailure) ∧
    (∀ outs stF, forecast model c mm ld hist horizon = .ok (outs, stF) →
      outs.length = horizon ∧ ∀ o ∈ outs, model o.row = some o.pred) := by
  constructor
  · intro i st row h hm
    exact stepR_predictor_fail pyRound model c ld i st row h hm
  · intro outs stF hok
    have helim := forecastAuxR_ok_elim pyRound model c ld horizon 1
      (seed hist mm) outs stF hok
    exact ⟨helim.1, fun o ho => (helim.2 o ho).1⟩

/-- C7 witness: a concrete step whose predictor returns `none` aborts with
`predictorFailure`. -/
theorem predictor_failure_aborts_witness :
    step (fun _ => none) 1 100 1 ⟨[1, 2, 3], [1, 3, 6], 10⟩ =
      .error .predictorFailure :=
  (predictor_failure_aborts (fun _ => none) 1 10 100 [] 0).1 1
    ⟨[1, 2, 3], [1, 3, 6], 10⟩
    { months_since_start := 11, county_encoded := 1, ev_total_lag1 := 3,
      ev_total_lag2 := 2, ev_total_lag3 := 1, ev_total_roll_mean_3 := 2,
      ev_total_pct_change_1 := 1/2, ev_total_pct_change_3 := 2,
      ev_growth_slope := 0 }
    (by with_unfolding_all rfl) rfl

/-- C4: for every history with at least 3 points, every horizon ≥ 1 and
every total predictor, the forecast succeeds with exactly `horizon` points,
emitted in generation order with dates `ld + 1, ld + 2, ..., ld + horizon` —
consecutive months, strictly increasing, starting one month after the last
historical date `ld`. -/
theorem forecast_returns_horizon_points (model : Predictor) (c mm ld : ℤ)
    (hist : List ℚ) (horizon : ℕ) (h3 : 3 ≤ hist.length) (hone : 1 ≤ horizon)
    (htot : ∀ r, (model r).isSome = true) :
    ∃ outs stF, forecast model c mm ld hist horizon = .ok (outs, stF) ∧
      outs.length = horizon ∧
      outs.map (fun o => o.point.date) =
        (List.range horizon).map (fun j => ld + ((1 + j : ℕ) : ℤ)) := by
  have hraw : 3 ≤ (seed hist mm).raw.length := by
    show 3 ≤ (last6 hist).length
    rw [length_last6]
    omega
  have hcne : (seed hist mm).cum ≠ [] := by
    show cumsum (last6 hist) ≠ []
    intro hnil
    have := length_cumsum (last6 hist)
    rw [hnil] at this
    simp only [List.length_nil] at this
    rw [length_last6] at this
    omega
  obtain ⟨outs, stF, hok, hdates⟩ :=
    forecastAuxR_total pyRound model c ld htot horizon 1 (seed hist mm)
      hraw hcne
  exact ⟨outs, stF, hok,
    (forecastAuxR_ok_elim pyRound model c ld horizon 1 (seed hist mm)
      outs stF hok).1, hdates⟩

/-- C4 witness: the theorem applied to a concrete three-point history and
horizon 2. -/
theorem forecast_returns_horizon_points_witness :
    ∃ outs stF,
      forecast (fun _ => some 1) 1 10 100 [1, 2, 3] 2 = .ok (outs, stF) ∧
      outs.length = 2 ∧
      outs.map (fun o => o.point.date) =
        (List.range 2).map (fun j => (100 : ℤ) + ((1 + j : ℕ) : ℤ)) :=
  forecast_returns_horizon_points (fun _ => some 1) 1 10 100 [1, 2, 3] 2
    (by norm_num) (by norm_num) (fun r => rfl)





/-- C9: the internal autoregressive chain is a function of the unrounded
predictions only.  The script's forecast is the loop instantiated with
Python `round`, and running the same loop with any two display-rounding
functions yields identical per-step feature rows (hence identical lag,
rolling-mean, percent-change and growth-slope values), identical unrounded
predictions, identical dates, identical error behaviour and identical final
window states. -/
theorem rounding_isolation (rnd1 rnd2 : ℚ → ℤ) (model : Predictor)
    (c mm ld : ℤ) (hist : List ℚ) (horizon : ℕ) :
    forecast model c mm ld hist horizon =
      forecastAuxR pyRound model c ld 1 horizon (seed hist mm) ∧
    chainView (forecastAuxR rnd1 model c ld 1 horizon (seed hist mm)) =
      chainView (forecastAuxR rnd2 model c ld 1 horizon (seed hist mm)) :=
  ⟨rfl, chainView_auxR rnd1 rnd2 model c ld horizon 1 (seed hist mm)⟩

/-- C8: the multi-county aggregation is exactly the single-county pipeline
mapped over the selected counties: each county's forecast and stitched
cumulative series equal those of a standalone single-county run on its data
alone, with no state shared across counties. -/
theorem aggregate_eq_map_single (model : Predictor) (ds : List CountyData)
    (horizon : ℕ) :
    aggregate model ds horizon =
      ds.map (fun d => runCounty model d horizon) := by
  unfold aggregate
  simp only [runCountyCty_eq]

/-- C6: at any step (`mkRow` output) with cumulative window of length at
most 6 — the invariant the trimming maintains — the growth slope is 0 when
the window holds fewer than 6 points, and otherwise equals `polyfit1Slope`
of the window, which is THE slope coefficient of the degree-1 least-squares
fit against indices 0..5: together with some intercept it minimizes the sum
of squared residuals, and every minimizer has exactly this slope. -/
theorem growth_slope_least_squares (c m : ℤ) (raw cum : List ℚ)
    (row : FeatureRow) (h : mkRow c m raw cum = some row)
    (h6 : cum.length ≤ 6) :
    (cum.length < 6 → row.ev_growth_slope = 0) ∧
    (cum.length = 6 →
      row.ev_growth_slope = polyfit1Slope cum ∧
      (∃ b, ∀ a' b', sqErr cum row.ev_growth_slope b ≤ sqErr cum a' b') ∧
      (∀ a b, (∀ a' b', sqErr cum a b ≤ sqErr cum a' b') →
        a = row.ev_growth_slope)) := by
  obtain ⟨l1, l2, l3, e1, e2, e3, hrow⟩ :=
    (mkRow_eq_some_iff c m raw cum row).mp h
  have hslope : row.ev_growth_slope =
      if 6 ≤ cum.length then polyfit1Slope (last6 cum) else 0 := by rw [hrow]
  constructor
  · intro hlt
    rw [hslope, if_neg (by omega)]
  · intro heq
    have hsl : row.ev_growth_slope = polyfit1Slope cum := by
      rw [hslope, if_pos (by omega), last6_eq_of_length_le h6]
    rcases cum with _ | ⟨y0, cum⟩
    · simp at heq
    rcases cum with _ | ⟨y1, cum⟩
    · simp at heq
    rcases cum with _ | ⟨y2, cum⟩
    · simp at heq
    rcases cum with _ | ⟨y3, cum⟩
    · simp at heq
    rcases cum with _ | ⟨y4, cum⟩
    · simp at heq
    rcases cum with _ | ⟨y5, cum⟩
    · simp at heq
    obtain rfl : cum = [] := by
      have : cum.length = 0 := by
        simp only [List.length_cons] at heq
        omega
      exact List.eq_nil_of_length_eq_zero this
    refine ⟨hsl, ?_, ?_⟩
    · refine ⟨((y0 + y1 + y2 + y3 + y4 + y5) -
        15 * polyfit1Slope [y0, y1, y2, y3, y4, y5]) / 6, fun a' b' => ?_⟩
      rw [hsl]
      exact ls_min_six y0 y1 y2 y3 y4 y5 a' b' _ _ rfl rfl
    · intro a b hmin
      rw [hsl]
      exact ls_unique_six y0 y1 y2 y3 y4 y5 a b _
        (((y0 + y1 + y2 + y3 + y4 + y5) -
          15 * polyfit1Slope [y0, y1, y2, y3, y4, y5]) / 6) rfl rfl hmin

/-- C6 witness: the growth-slope characterization applied to a concrete
feature row over the six-point cumulative window `[1, 2, 3, 4, 5, 6]` (the
statement is the instantiated conclusion with the row projection reduced). -/
theorem growth_slope_least_squares_witness :
    (([1, 2, 3, 4, 5, 6] : List ℚ).length < 6 →
      polyfit1Slope [1, 2, 3, 4, 5, 6] = 0) ∧
    (([1, 2, 3, 4, 5, 6] : List ℚ).length = 6 →
      polyfit1Slope [1, 2, 3, 4, 5, 6] = polyfit1Slope [1, 2, 3, 4, 5, 6] ∧
      (∃ b, ∀ a' b',
        sqErr [1, 2, 3, 4, 5, 6] (polyfit1Slope [1, 2, 3, 4, 5, 6]) b ≤
          sqErr [1, 2, 3, 4, 5, 6] a' b') ∧
      (∀ a b, (∀ a' b', sqErr [1, 2, 3, 4, 5, 6] a b ≤
          sqErr [1, 2, 3, 4, 5, 6] a' b') →
        a = polyfit1Slope [1, 2, 3, 4, 5, 6])) :=
  growth_slope_least_squares 1 10 [1, 2, 3] [1, 2, 3, 4, 5, 6]
    { months_since_start := 10, county_encoded := 1, ev_total_lag1 := 3,
      ev_total_lag2 := 2, ev_total_lag3 := 1, ev_total_roll_mean_3 := 2,
      ev_total_pct_change_1 := 1/2, ev_total_pct_change_3 := 2,
      ev_growth_slope := polyfit1Slope [1, 2, 3, 4, 5, 6] }
    (by with_unfolding_all rfl) (by norm_num)

end EVForecast
